import Mathlib

/-!
Verification of the agent response pipeline and workflow orchestrator of the
Multi-Agent-Application repository (src/app.py), via a shallow embedding.

Python values that can come out of json.loads are modelled by the inductive
type PyValue; Python dicts with string keys are association lists whose update
operation (dictSet) replaces in place, matching dict assignment semantics.
Python exceptions are modelled as Except values; the try/except blocks of the
source become matches on those values, so every function here is total, like
the corresponding Python code paths observed from the caller.
-/

/-- Model of a Python value as produced by json.loads. Numbers keep their
source lexeme; no settled claim depends on numeric rendering. -/
inductive PyValue where
  | null : PyValue
  | bool : Bool → PyValue
  | num : String → PyValue
  | str : String → PyValue
  | list : List PyValue → PyValue
  | obj : List (String × PyValue) → PyValue

/-- A Python dict with string keys, as an insertion-ordered association list. -/
abbrev Dict := List (String × PyValue)

/-- Python dict lookup: d.get(k) returning an Option. -/
def dictGet? : Dict → String → Option PyValue
  | [], _ => none
  | (k', v') :: rest, k => if k' = k then some v' else dictGet? rest k

/-- Python dict lookup with a default: d.get(k, dflt). -/
def dictGetD (d : Dict) (k : String) (dflt : PyValue) : PyValue :=
  match dictGet? d k with
  | some v => v
  | none => dflt

/-- Python dict assignment d[k] = v: replaces the value in place when the key
exists (keeping its position), appends otherwise. -/
def dictSet : Dict → String → PyValue → Dict
  | [], k, v => [(k, v)]
  | (k', v') :: rest, k, v =>
    if k' = k then (k, v) :: rest else (k', v') :: dictSet rest k v

/-- Line 13 of app.py: keep a character iff ord(char) >= 32 or it is one of
newline, carriage return, tab. -/
def keepChar (c : Char) : Bool :=
  32 ≤ c.toNat || c = Char.ofNat 10 || c = Char.ofNat 13 || c = Char.ofNat 9

/-- One Python str.replace(target, two-character escape) pass, for a
single-character pattern: every occurrence is rewritten. -/
def replaceChar (target esc : Char) (l : List Char) : List Char :=
  l.flatMap fun c => if c = target then ['\\', esc] else [c]

/-- Line 19 of app.py: text.encode(ascii, ignore) keeps code points up to 127. -/
def asciiKeep (c : Char) : Bool := c.toNat ≤ 127

/-- clean_text_for_json of app.py lines 10-21, on a list of characters:
filter control characters, escape newline, carriage return and tab into
two-character sequences, then drop non-ASCII code points. -/
def cleanList (l : List Char) : List Char :=
  (replaceChar (Char.ofNat 9) 't'
    (replaceChar (Char.ofNat 13) 'r'
      (replaceChar (Char.ofNat 10) 'n' (l.filter keepChar)))).filter asciiKeep

/-- clean_text_for_json on strings. -/
def clean_text_for_json (s : String) : String := String.mk (cleanList s.data)

/-- Python str.isspace, the character set stripped by str.strip(). -/
def pyIsSpace (c : Char) : Bool :=
  let n := c.toNat
  n = 32 || (9 ≤ n && n ≤ 13) || (28 ≤ n && n ≤ 31) || n = 133 || n = 160 ||
  n = 5760 || (8192 ≤ n && n ≤ 8202) || n = 8232 || n = 8233 || n = 8239 ||
  n = 8287 || n = 12288

/-- Python str.strip(): drop leading and trailing whitespace. -/
def pyStripL (l : List Char) : List Char :=
  ((l.dropWhile pyIsSpace).reverse.dropWhile pyIsSpace).reverse

/-- Index of the last occurrence of a character. -/
def lastIdxOf (c : Char) (l : List Char) : Option Nat :=
  match l.reverse.findIdx? (· = c) with
  | some k => some (l.length - 1 - k)
  | none => none

/-- Line 54 of app.py: re.search of an opening brace followed greedily by
anything up to a closing brace. The match, when it exists, runs from the
first opening brace to the last closing brace of the text. -/
def braceSpan (l : List Char) : Option (List Char) :=
  match l.findIdx? (· = '{') with
  | none => none
  | some i =>
    match lastIdxOf '}' l with
    | none => none
    | some j => if i < j then some ((l.drop i).take (j - i + 1)) else none

/-- JSON whitespace accepted by the json module between tokens. -/
def jsonWs (c : Char) : Bool :=
  c = ' ' || c = Char.ofNat 9 || c = Char.ofNat 10 || c = Char.ofNat 13

/-- Skip JSON whitespace. -/
def skipWs : List Char → List Char
  | [] => []
  | c :: rest => if jsonWs c then skipWs rest else c :: rest

/-- Value of a hexadecimal digit. -/
def hexVal (c : Char) : Option Nat :=
  let n := c.toNat
  if 48 ≤ n && n ≤ 57 then some (n - 48)
  else if 97 ≤ n && n ≤ 102 then some (n - 87)
  else if 65 ≤ n && n ≤ 70 then some (n - 55)
  else none

/-- Single-character JSON string escapes. -/
def escChar (c : Char) : Option Char :=
  if c = '"' then some '"'
  else if c = '\\' then some '\\'
  else if c = '/' then some '/'
  else if c = 'b' then some (Char.ofNat 8)
  else if c = 'f' then some (Char.ofNat 12)
  else if c = 'n' then some (Char.ofNat 10)
  else if c = 'r' then some (Char.ofNat 13)
  else if c = 't' then some (Char.ofNat 9)
  else none

/-- Four hexadecimal digits. -/
def hex4 : List Char → Option (Nat × List Char)
  | a :: b :: c :: d :: rest =>
    match hexVal a, hexVal b, hexVal c, hexVal d with
    | some x, some y, some z, some w => some (((x * 16 + y) * 16 + z) * 16 + w, rest)
    | _, _, _, _ => none
  | _ => none

/-- Body of a JSON string after the opening quote, in strict mode: raw
control characters are rejected, escapes are decoded, surrogate pairs in
backslash-u escapes are combined. A lone surrogate, which Python would keep
in the str, is not representable as a Char and decodes to the default
character; no settled claim depends on that corner. -/
def parseJStringAux : Nat → List Char → List Char → Option (String × List Char)
  | 0, _, _ => none
  | _ + 1, [], _ => none
  | fuel + 1, c :: rest, acc =>
    if c = '"' then some (String.mk acc.reverse, rest)
    else if c = '\\' then
      match rest with
      | [] => none
      | e :: rest2 =>
        if e = 'u' then
          match hex4 rest2 with
          | none => none
          | some (n, rest3) =>
            if 55296 ≤ n && n ≤ 56319 then
              match rest3 with
              | '\\' :: 'u' :: rest4 =>
                match hex4 rest4 with
                | some (m, rest5) =>
                  if 56320 ≤ m && m ≤ 57343 then
                    parseJStringAux fuel rest5
                      (Char.ofNat (65536 + (n - 55296) * 1024 + (m - 56320)) :: acc)
                  else parseJStringAux fuel rest3 (Char.ofNat n :: acc)
                | none => parseJStringAux fuel rest3 (Char.ofNat n :: acc)
              | _ => parseJStringAux fuel rest3 (Char.ofNat n :: acc)
            else parseJStringAux fuel rest3 (Char.ofNat n :: acc)
        else
          match escChar e with
          | some ec => parseJStringAux fuel rest2 (ec :: acc)
          | none => none
    else if c.toNat < 32 then none
    else parseJStringAux fuel rest (c :: acc)

/-- Parse a JSON string body, with enough fuel for the remaining input. -/
def parseJString (l : List Char) : Option (String × List Char) :=
  parseJStringAux (l.length + 1) l []

/-- Take a maximal run of decimal digits. -/
def takeDigits : List Char → List Char × List Char
  | [] => ([], [])
  | c :: rest =>
    if c.isDigit then
      let p := takeDigits rest
      (c :: p.1, p.2)
    else ([], c :: rest)

/-- Integer part of a JSON number: 0, or a nonzero digit followed by digits. -/
def parseIntPart : List Char → Option (List Char × List Char)
  | [] => none
  | c :: rest =>
    if c = '0' then some (['0'], rest)
    else if c.isDigit then
      let p := takeDigits rest
      some (c :: p.1, p.2)
    else none

/-- Optional fractional part: a dot must be followed by at least one digit to
be consumed, as in the json module number pattern. -/
def parseFracPart : List Char → List Char × List Char
  | '.' :: rest =>
    match takeDigits rest with
    | ([], _) => ([], '.' :: rest)
    | (ds, r) => ('.' :: ds, r)
  | l => ([], l)

/-- Optional exponent part: e or E, an optional sign, then at least one
digit, else nothing is consumed. -/
def parseExpPart : List Char → List Char × List Char
  | [] => ([], [])
  | c :: rest =>
    if c = 'e' || c = 'E' then
      match rest with
      | [] => ([], [c])
      | s :: rest2 =>
        if s = '+' || s = '-' then
          match takeDigits rest2 with
          | ([], _) => ([], c :: rest)
          | (ds, r) => (c :: s :: ds, r)
        else
          match takeDigits rest with
          | ([], _) => ([], c :: rest)
          | (ds, r) => (c :: ds, r)
    else ([], c :: rest)

/-- A JSON number, returned as its lexeme. -/
def parseNumber (l : List Char) : Option (String × List Char) :=
  let p := match l with
    | '-' :: r => (['-'], r)
    | _ => (([] : List Char), l)
  match parseIntPart p.2 with
  | none => none
  | some (ip, l2) =>
    let fp := parseFracPart l2
    let ep := parseExpPart fp.2
    some (String.mk (p.1 ++ ip ++ fp.1 ++ ep.1), ep.2)

/-- Match a literal prefix, returning the remainder. -/
def stripPrefixL : List Char → List Char → Option (List Char)
  | [], l => some l
  | _ :: _, [] => none
  | p :: ps, c :: cs => if c = p then stripPrefixL ps cs else none

mutual

/-- One JSON value at the current (whitespace-skipped) position, as decoded
by json.loads: strings, objects, arrays, the three literals, the three
non-finite constants the json module accepts by default, and numbers. -/
def parseValue : Nat → List Char → Option (PyValue × List Char)
  | 0, _ => none
  | fuel + 1, l =>
    match l with
    | [] => none
    | c :: rest =>
      if c = '"' then
        match parseJString rest with
        | some (s, r) => some (.str s, r)
        | none => none
      else if c = '{' then parseObjBody fuel (skipWs rest)
      else if c = '[' then parseArrBody fuel (skipWs rest)
      else
        match stripPrefixL ['n', 'u', 'l', 'l'] l with
        | some r => some (.null, r)
        | none =>
        match stripPrefixL ['t', 'r', 'u', 'e'] l with
        | some r => some (.bool true, r)
        | none =>
        match stripPrefixL ['f', 'a', 'l', 's', 'e'] l with
        | some r => some (.bool false, r)
        | none =>
        match stripPrefixL ['N', 'a', 'N'] l with
        | some r => some (.num "NaN", r)
        | none =>
        match stripPrefixL ['I', 'n', 'f', 'i', 'n', 'i', 't', 'y'] l with
        | some r => some (.num "Infinity", r)
        | none =>
        match stripPrefixL ['-', 'I', 'n', 'f', 'i', 'n', 'i', 't', 'y'] l with
        | some r => some (.num "-Infinity", r)
        | none =>
        match parseNumber l with
        | some (lex, r) => some (.num lex, r)
        | none => none

/-- Object body after the opening brace and whitespace. -/
def parseObjBody : Nat → List Char → Option (PyValue × List Char)
  | 0, _ => none
  | fuel + 1, l =>
    match l with
    | '}' :: r => some (.obj [], r)
    | _ => parseMembers fuel l []

/-- Key-value members of an object; duplicate keys overwrite in place as in
a Python dict. -/
def parseMembers : Nat → List Char → Dict → Option (PyValue × List Char)
  | 0, _, _ => none
  | fuel + 1, l, acc =>
    match l with
    | '"' :: r =>
      match parseJString r with
      | none => none
      | some (k, r1) =>
        match skipWs r1 with
        | ':' :: r2 =>
          match parseValue fuel (skipWs r2) with
          | none => none
          | some (v, r3) =>
            match skipWs r3 with
            | ',' :: r4 => parseMembers fuel (skipWs r4) (dictSet acc k v)
            | '}' :: r4 => some (.obj (dictSet acc k v), r4)
            | _ => none
        | _ => none
    | _ => none

/-- Array body after the opening bracket and whitespace. -/
def parseArrBody : Nat → List Char → Option (PyValue × List Char)
  | 0, _ => none
  | fuel + 1, l =>
    match l with
    | ']' :: r => some (.list [], r)
    | _ => parseElems fuel l []

/-- Elements of an array. -/
def parseElems : Nat → List Char → List PyValue → Option (PyValue × List Char)
  | 0, _, _ => none
  | fuel + 1, l, acc =>
    match parseValue fuel l with
    | none => none
    | some (v, r) =>
      match skipWs r with
      | ',' :: r2 => parseElems fuel (skipWs r2) (acc ++ [v])
      | ']' :: r2 => some (.list (acc ++ [v]), r2)
      | _ => none

end

/-- json.loads: parse one value surrounded by optional whitespace; any
leftover input is a decode error, modelled as none. The fuel bound exceeds
the number of parser calls any input of this length can cause. -/
def json_loads (s : String) : Option PyValue :=
  match parseValue (3 * s.length + 8) (skipWs s.data) with
  | some (v, rest) => if (skipWs rest).isEmpty then some v else none
  | none => none

mutual

/-- Python repr, used by str() on containers: None, True, False, numbers by
their lexeme, quoted strings, bracketed lists and braced dicts. Rendering
details of containers and numbers are schematic; no settled claim depends on
those branches. -/
def pyRepr : PyValue → String
  | .null => "None"
  | .bool true => "True"
  | .bool false => "False"
  | .num lex => lex
  | .str s => "\x27" ++ s ++ "\x27"
  | .list xs => "[" ++ pyReprElems xs ++ "]"
  | .obj kvs => "\x7b" ++ pyReprPairs kvs ++ "\x7d"

/-- Comma-separated repr of list elements. -/
def pyReprElems : List PyValue → String
  | [] => ""
  | [v] => pyRepr v
  | v :: vs => pyRepr v ++ ", " ++ pyReprElems vs

/-- Comma-separated repr of dict entries. -/
def pyReprPairs : List (String × PyValue) → String
  | [] => ""
  | [(k, v)] => "\x27" ++ k ++ "\x27: " ++ pyRepr v
  | (k, v) :: kvs => "\x27" ++ k ++ "\x27: " ++ pyRepr v ++ ", " ++ pyReprPairs kvs

end

/-- Python str(): identity on strings, repr otherwise. -/
def pyStr : PyValue → String
  | .str s => s
  | v => pyRepr v

/-- Whether a json number lexeme denotes a Python float rather than an int. -/
def numIsFloat (lex : String) : Bool :=
  lex.any (fun c => c = '.' || c = 'e' || c = 'E') ||
  lex = "NaN" || lex = "Infinity" || lex = "-Infinity"

/-- The Python type name of a decoded value, as it appears in error text. -/
def pyTypeName : PyValue → String
  | .null => "NoneType"
  | .bool _ => "bool"
  | .num lex => if numIsFloat lex then "float" else "int"
  | .str _ => "str"
  | .list _ => "list"
  | .obj _ => "dict"

/-- Whether a decoded value is a JSON object (a Python dict). -/
def isObj : PyValue → Bool
  | .obj _ => true
  | _ => false

/-- str(e) for the AttributeError raised by calling .get on a non-dict. -/
def attrMsg (tyName : String) : String :=
  "\x27" ++ tyName ++ "\x27 object has no attribute \x27get\x27"

/-- The fixed thoughts text of the synthesized fallback record (line 67). -/
def synthThoughts : String := "Processed the input and structured the response"

/-- The fixed thoughts text of the exception-path record (line 86). -/
def errThoughts : String := "Error occurred during processing"

/-- The response text of the exception-path record (line 87), embedding the
human-readable description of the fault. -/
def errResponse (msg : String) : String :=
  "I encountered an error while processing the input: " ++ msg ++
  ". Please try rephrasing your request."

/-- The dict returned by the except-branch of Agent.process (lines 85-88). -/
def errorDict (msg : String) : Dict :=
  [("thoughts", .str errThoughts), ("response", .str (errResponse msg))]

/-- Lines 51-59 of app.py: strip the raw reply, take the brace span when the
regex matches, and clean the candidate for JSON parsing. -/
def candidateOf (raw : String) : String :=
  let t := pyStripL raw.data
  let t2 := match braceSpan t with
    | some s => s
    | none => t
  String.mk (cleanList t2)

/-- Lines 51-78 of app.py, after a successful model call: parse the cleaned
candidate, fall back to the synthesized record on decode failure, then store
the cleaned stringified thoughts and response fields back into the dict.
Calling .get on a non-dict parse result raises an AttributeError, modelled as
the error case. The returned String is the response value just stored, read
back by the history append of line 77. -/
def innerExtract (raw : String) : Except String (Dict × String) :=
  let cleaned := candidateOf raw
  let rj : PyValue :=
    match json_loads cleaned with
    | some v => v
    | none => .obj [("thoughts", .str synthThoughts), ("response", .str cleaned)]
  match rj with
  | .obj d =>
    let tVal := clean_text_for_json (pyStr (dictGetD d "thoughts" (.str "")))
    let d1 := dictSet d "thoughts" (.str tVal)
    let rVal := clean_text_for_json (pyStr (dictGetD d1 "response" (.str "")))
    .ok (dictSet d1 "response" (.str rVal), rVal)
  | v => .error (attrMsg (pyTypeName v))

/-- One entry of an agent conversation history (lines 75-78). -/
structure HistEntry where
  role : String
  content : String
deriving DecidableEq

/-- Outcome of the external model call: the reply text on success, or the
str() of the transport-level fault on failure. -/
inductive CallResult where
  | ok : String → CallResult
  | fault : String → CallResult

/-- Agent.process (lines 37-88) given the outcome of the model call: on a
transport fault, or on any exception escaping the response handling, the
outer except returns the safe fallback dict and the history is untouched;
otherwise the extracted dict is returned and one entry is appended. -/
def agentProcess (name : String) (hist : List HistEntry) (c : CallResult) :
    Dict × List HistEntry :=
  match c with
  | .fault m => (errorDict m, hist)
  | .ok raw =>
    match innerExtract raw with
    | .error e => (errorDict e, hist)
    | .ok (d, resp) => (d, hist ++ [⟨name, resp⟩])

/-- The conversation histories of the three fixed agents of
MultiAgentSystem (lines 93-97). -/
structure Agents where
  researcher : List HistEntry
  writer : List HistEntry
  critic : List HistEntry

/-- One entry of the list returned by run_workflow (lines 109, 116, 123). -/
structure WorkflowResult where
  agent : String
  output : Dict

/-- The environment of one run_workflow call: the model-call outcome each
stage would observe for a given input text, plus an optional fault injected
at one of the four orchestration points inside the guarded block (before
each stage, and after the last stage), modelling an unexpected exception
raised outside Agent.process, such as a presentation-layer call failing. -/
structure Env where
  researcherCall : String → CallResult
  writerCall : String → CallResult
  criticCall : String → CallResult
  orchFault : Option (Nat × String)

/-- Whether the injected orchestration fault fires at the given point. -/
def checkFault (env : Env) (point : Nat) : Except String Unit :=
  match env.orchFault with
  | some (n, m) => if n = point then .error m else .ok ()
  | none => .ok ()

/-- Python dict subscription d[k]: KeyError when the key is absent. -/
def pyGetItem (d : Dict) (k : String) : Except String PyValue :=
  match dictGet? d k with
  | some v => .ok v
  | none => .error ("\x27" ++ k ++ "\x27")

/-- The researcher stage input (line 107). -/
def researcherInput (task : String) : String :=
  "Analyze this topic and provide key points: " ++ task

/-- The writer stage input (line 114), embedding the previous response. -/
def writerInput (task resp : String) : String :=
  "Using these research points: " ++ resp ++
  "\nCreate a well-structured explanation of: " ++ task

/-- The critic stage input (line 121), embedding the previous response. -/
def criticInput (task resp : String) : String :=
  "Review this explanation of " ++ task ++ ":\n" ++ resp ++
  "\nProvide specific feedback and suggestions."

/-- MultiAgentSystem.run_workflow (lines 99-132): three sequential stages,
each passing the previous stage response into the next stage input; the
except-branch of line 127 turns any exception raised inside the guarded
block into an empty result list, discarding the results accumulated so far
while keeping whatever history mutations already happened. -/
def run_workflow (env : Env) (ag : Agents) (task : String) :
    List WorkflowResult × Agents :=
  match checkFault env 0 with
  | .error _ => ([], ag)
  | .ok _ =>
    let p1 := agentProcess "Researcher" ag.researcher
      (env.researcherCall (researcherInput task))
    let ag1 : Agents := ⟨p1.2, ag.writer, ag.critic⟩
    match checkFault env 1 with
    | .error _ => ([], ag1)
    | .ok _ =>
      match pyGetItem p1.1 "response" with
      | .error _ => ([], ag1)
      | .ok v1 =>
        let p2 := agentProcess "Writer" ag1.writer
          (env.writerCall (writerInput task (pyStr v1)))
        let ag2 : Agents := ⟨ag1.researcher, p2.2, ag1.critic⟩
        match checkFault env 2 with
        | .error _ => ([], ag2)
        | .ok _ =>
          match pyGetItem p2.1 "response" with
          | .error _ => ([], ag2)
          | .ok v2 =>
            let p3 := agentProcess "Critic" ag2.critic
              (env.criticCall (criticInput task (pyStr v2)))
            let ag3 : Agents := ⟨ag2.researcher, ag2.writer, p3.2⟩
            match checkFault env 3 with
            | .error _ => ([], ag3)
            | .ok _ =>
              ([⟨"researcher", p1.1⟩, ⟨"writer", p2.1⟩, ⟨"critic", p3.1⟩], ag3)

/-- The response field of a record, as the theorems below read it. -/
def respOf (d : Dict) : String :=
  match dictGet? d "response" with
  | some (.str s) => s
  | some v => pyStr v
  | none => ""

theorem dictGet?_dictSet_self (d : Dict) (k : String) (v : PyValue) :
    dictGet? (dictSet d k v) k = some v := by
  induction d with
  | nil => simp [dictSet, dictGet?]
  | cons p rest ih =>
    by_cases h : p.1 = k
    · simp [dictSet, dictGet?, h]
    · simp [dictSet, dictGet?, h, ih]

theorem dictGet?_dictSet_ne (d : Dict) (k k' : String) (v : PyValue)
    (h : k' ≠ k) : dictGet? (dictSet d k v) k' = dictGet? d k' := by
  have h' : k ≠ k' := Ne.symm h
  induction d with
  | nil => simp [dictSet, dictGet?, h']
  | cons p rest ih =>
    obtain ⟨a, b⟩ := p
    by_cases hp : a = k
    · subst hp
      simp [dictSet, dictGet?, h']
    · by_cases hp' : a = k'
      · simp [dictSet, dictGet?, hp, hp', h]
      · simp [dictSet, dictGet?, hp, hp', ih]

/-- A character of a replaceChar output is an escape character or a
passed-through character distinct from the target. -/
theorem mem_replaceChar {c t e : Char} {l : List Char}
    (h : c ∈ replaceChar t e l) : c = '\\' ∨ c = e ∨ (c ∈ l ∧ c ≠ t) := by
  induction l with
  | nil => simp [replaceChar] at h
  | cons a rest ih =>
    simp only [replaceChar, List.flatMap_cons, List.mem_append] at h
    rcases h with h | h
    · by_cases ha : a = t
      · simp [ha] at h
        rcases h with h | h
        · exact Or.inl h
        · exact Or.inr (Or.inl h)
      · simp [ha] at h
        exact Or.inr (Or.inr ⟨h ▸ List.mem_cons_self a rest, h ▸ ha⟩)
    · rcases ih h with h' | h' | ⟨hm, hne⟩
      · exact Or.inl h'
      · exact Or.inr (Or.inl h')
      · exact Or.inr (Or.inr ⟨List.mem_cons_of_mem a hm, hne⟩)

/-- Replacing a character absent from the list is the identity. -/
theorem replaceChar_eq_self {t e : Char} {l : List Char}
    (h : ∀ c ∈ l, c ≠ t) : replaceChar t e l = l := by
  induction l with
  | nil => rfl
  | cons a rest ih =>
    have ha : a ≠ t := h a (List.mem_cons_self a rest)
    simp only [replaceChar, List.flatMap_cons, if_neg ha]
    simp only [replaceChar] at ih
    rw [ih fun c hc => h c (List.mem_cons_of_mem a hc)]
    rfl

/-- The characters a sanitized text can contain: code points from 32 to 127,
and none of newline, carriage return, tab. -/
def cleanOutChar (c : Char) : Prop :=
  32 ≤ c.toNat ∧ c.toNat ≤ 127 ∧
  c ≠ Char.ofNat 10 ∧ c ≠ Char.ofNat 13 ∧ c ≠ Char.ofNat 9

theorem cleanList_mem {c : Char} {l : List Char} (h : c ∈ cleanList l) :
    cleanOutChar c := by
  simp only [cleanList, List.mem_filter] at h
  obtain ⟨h1, hascii⟩ := h
  rcases mem_replaceChar h1 with hc | hc | ⟨h2, ht⟩
  · subst hc; refine ⟨by decide, by decide, by decide, by decide, by decide⟩
  · subst hc; refine ⟨by decide, by decide, by decide, by decide, by decide⟩
  · rcases mem_replaceChar h2 with hc | hc | ⟨h3, hr⟩
    · subst hc; refine ⟨by decide, by decide, by decide, by decide, by decide⟩
    · subst hc; refine ⟨by decide, by decide, by decide, by decide, by decide⟩
    · rcases mem_replaceChar h3 with hc | hc | ⟨h4, hn⟩
      · subst hc; refine ⟨by decide, by decide, by decide, by decide, by decide⟩
      · subst hc; refine ⟨by decide, by decide, by decide, by decide, by decide⟩
      · have hk : keepChar c = true := (List.mem_filter.mp h4).2
        simp only [keepChar, Bool.or_eq_true, decide_eq_true_eq] at hk
        have h32 : 32 ≤ c.toNat := by
          rcases hk with ((hk | hk) | hk) | hk
          · exact hk
          · exact absurd hk hn
          · exact absurd hk hr
          · exact absurd hk ht
        have ha : c.toNat ≤ 127 := by
          simpa [asciiKeep] using hascii
        exact ⟨h32, ha, hn, hr, ht⟩

/-- Sanitization is the identity on a list of sanitized-output characters. -/
theorem cleanList_fixed {l : List Char} (h : ∀ c ∈ l, cleanOutChar c) :
    cleanList l = l := by
  have hfilter : l.filter keepChar = l := by
    rw [List.filter_eq_self]
    intro c hc
    have := (h c hc).1
    simp [keepChar, this]
  have hn : replaceChar (Char.ofNat 10) 'n' (l.filter keepChar) = l := by
    rw [hfilter]
    exact replaceChar_eq_self fun c hc => (h c hc).2.2.1
  have hr : replaceChar (Char.ofNat 13) 'r'
      (replaceChar (Char.ofNat 10) 'n' (l.filter keepChar)) = l := by
    rw [hn]
    exact replaceChar_eq_self fun c hc => (h c hc).2.2.2.1
  have ht : replaceChar (Char.ofNat 9) 't'
      (replaceChar (Char.ofNat 13) 'r'
        (replaceChar (Char.ofNat 10) 'n' (l.filter keepChar))) = l := by
    rw [hr]
    exact replaceChar_eq_self fun c hc => (h c hc).2.2.2.2
  rw [cleanList, ht, List.filter_eq_self]
  intro c hc
  have := (h c hc).2.1
  simp [asciiKeep, this]

theorem cleanList_idem (l : List Char) : cleanList (cleanList l) = cleanList l :=
  cleanList_fixed fun _ hc => cleanList_mem hc

/-- String-level idempotence of the sanitizer. -/
theorem clean_idem (s : String) :
    clean_text_for_json (clean_text_for_json s) = clean_text_for_json s := by
  simp [clean_text_for_json, cleanList_idem]

theorem pyStr_str (s : String) : pyStr (.str s) = s := rfl

/-- After storing the thoughts string and then the response string, the
thoughts key still holds the stored thoughts string. -/
theorem dict_finalize_thoughts (d0 : Dict) (tv rv : String) :
    dictGet? (dictSet (dictSet d0 "thoughts" (.str tv)) "response" (.str rv))
      "thoughts" = some (.str tv) := by
  rw [dictGet?_dictSet_ne _ _ _ _ (by decide)]
  exact dictGet?_dictSet_self _ _ _

/-- Shape of a successful extraction: the final dict holds the response value
just stored (a sanitized string) under the response key, and a sanitized
string under the thoughts key. -/
theorem innerExtract_shape (raw : String) (d : Dict) (r : String)
    (h : innerExtract raw = .ok (d, r)) :
    dictGet? d "response" = some (.str r) ∧ clean_text_for_json r = r ∧
    ∃ t, dictGet? d "thoughts" = some (.str t) ∧ clean_text_for_json t = t := by
  simp only [innerExtract] at h
  cases hj : json_loads (candidateOf raw) with
  | none =>
    rw [hj] at h
    simp only [Except.ok.injEq, Prod.mk.injEq] at h
    obtain ⟨hd, hr⟩ := h
    subst hd
    subst hr
    exact ⟨dictGet?_dictSet_self _ _ _, clean_idem _, _,
      dict_finalize_thoughts _ _ _, clean_idem _⟩
  | some v =>
    rw [hj] at h
    cases v with
    | obj d0 =>
      simp only [Except.ok.injEq, Prod.mk.injEq] at h
      obtain ⟨hd, hr⟩ := h
      subst hd
      subst hr
      exact ⟨dictGet?_dictSet_self _ _ _, clean_idem _, _,
        dict_finalize_thoughts _ _ _, clean_idem _⟩
    | null => simp at h
    | bool b => simp at h
    | num lex => simp at h
    | str s => simp at h
    | list xs => simp at h

/-- Both fields of the dict returned by Agent.process are present and hold
string values, on every path. -/
theorem agentProcess_fields (name : String) (hist : List HistEntry)
    (c : CallResult) :
    ∃ t r, dictGet? ((agentProcess name hist c).1) "thoughts" = some (.str t) ∧
      dictGet? ((agentProcess name hist c).1) "response" = some (.str r) := by
  cases c with
  | fault m => exact ⟨errThoughts, errResponse m, rfl, rfl⟩
  | ok raw =>
    cases hi : innerExtract raw with
    | error e =>
      simp only [agentProcess, hi]
      exact ⟨errThoughts, errResponse e, rfl, rfl⟩
    | ok p =>
      obtain ⟨d, r⟩ := p
      obtain ⟨hresp, hrc, t, ht, htc⟩ := innerExtract_shape raw d r hi
      simp only [agentProcess, hi]
      exact ⟨t, r, ht, hresp⟩

/-- Subscripting the response key of a record returned by Agent.process
never raises and yields its response string. -/
theorem pyGetItem_resp (name : String) (hist : List HistEntry)
    (c : CallResult) :
    pyGetItem ((agentProcess name hist c).1) "response" =
      .ok (.str (respOf ((agentProcess name hist c).1))) := by
  obtain ⟨t, r, ht, hr⟩ := agentProcess_fields name hist c
  simp [pyGetItem, respOf, hr]

theorem agentProcess_fault (name : String) (hist : List HistEntry)
    (m : String) : agentProcess name hist (.fault m) = (errorDict m, hist) := rfl

theorem respOf_errorDict (m : String) : respOf (errorDict m) = errResponse m := rfl

theorem pyGetItem_errorDict (m : String) :
    pyGetItem (errorDict m) "response" = .ok (.str (errResponse m)) := rfl

/-- C1: for every model-call outcome, whatever raw reply text the model
produced and also on the transport-fault path, the record returned by
Agent.process carries both the thoughts and the response key, each bound to
a string value; every Python exception of those code paths is a value of the
embedding caught before the return, so nothing propagates to the caller. -/
theorem process_record_total (name : String) (hist : List HistEntry)
    (c : CallResult) :
    ∃ t r, dictGet? ((agentProcess name hist c).1) "thoughts" = some (.str t) ∧
      dictGet? ((agentProcess name hist c).1) "response" = some (.str r) :=
  agentProcess_fields name hist c

/-- C7: the sanitizer is idempotent on every input string. -/
theorem sanitize_idempotent (s : String) :
    clean_text_for_json (clean_text_for_json s) = clean_text_for_json s :=
  clean_idem s

/-- C8: on the exact reply text holding a JSON object with thoughts a and
response b, the extraction yields the record with thoughts a and response b
(shown on the full process path after a successful call; the history receives
the response b). -/
theorem extract_roundtrip :
    agentProcess "Researcher" []
        (.ok "\x7b\"thoughts\": \"a\", \"response\": \"b\"\x7d") =
      ([("thoughts", PyValue.str "a"), ("response", PyValue.str "b")],
        [⟨"Researcher", "b"⟩]) := rfl

/-- C10: when the model call succeeds and the response handling finishes
without an exception, Agent.process appends exactly one entry, labelled with
the agent name and carrying the returned record's response string, to the
end of the conversation history; on the transport-fault path the history is
returned untouched. -/
theorem process_history_effect :
    (∀ (name : String) (hist : List HistEntry) (raw : String) (d : Dict)
      (r : String), innerExtract raw = .ok (d, r) →
        agentProcess name hist (.ok raw) = (d, hist ++ [⟨name, r⟩]) ∧
        dictGet? d "response" = some (.str r)) ∧
    (∀ (name : String) (hist : List HistEntry) (m : String),
      agentProcess name hist (.fault m) = (errorDict m, hist)) := by
  constructor
  · intro name hist raw d r h
    exact ⟨by simp [agentProcess, h], (innerExtract_shape raw d r h).1⟩
  · intro name hist m
    rfl

theorem process_history_effect_witness :
    innerExtract "hi" =
      .ok ([("thoughts", PyValue.str synthThoughts),
            ("response", PyValue.str "hi")], "hi") ∧
    agentProcess "Researcher" [] (.ok "hi") =
      ([("thoughts", PyValue.str synthThoughts), ("response", PyValue.str "hi")],
        [⟨"Researcher", "hi"⟩]) ∧
    agentProcess "Researcher" [] (.fault "boom") = (errorDict "boom", []) :=
  ⟨rfl,
    (process_history_effect.1 "Researcher" [] "hi"
      [("thoughts", PyValue.str synthThoughts), ("response", PyValue.str "hi")]
      "hi" rfl).1,
    process_history_effect.2 "Researcher" [] "boom"⟩

/-- C6 counterexample: the claim says every character of the sanitized output
lies in the printable ASCII range and that characters outside it are dropped,
but the delete character (code point 127, outside the printable range 32-126)
passes through the sanitizer untouched. -/
theorem sanitize_printable_cex :
    cleanList [Char.ofNat 127] = [Char.ofNat 127] ∧
    ¬((Char.ofNat 127).toNat ≤ 126) := ⟨rfl, by decide⟩

/-- C6 amended: every character of the sanitized output has a code point
between 32 and 127 inclusive; characters below 32 survive only as their
two-character escapes and non-ASCII code points are dropped, but the delete
character 127, though not printable, is retained. -/
theorem sanitize_ascii_range (l : List Char) (c : Char)
    (h : c ∈ cleanList l) : 32 ≤ c.toNat ∧ c.toNat ≤ 127 :=
  ⟨(cleanList_mem h).1, (cleanList_mem h).2.1⟩

theorem sanitize_ascii_range_witness :
    ('A' ∈ cleanList ['A']) ∧ (32 ≤ ('A').toNat ∧ ('A').toNat ≤ 127) :=
  ⟨by decide, sanitize_ascii_range ['A'] 'A' (by decide)⟩

/-- C9 counterexample: on the transport-fault path the record fields are
built directly from the fault text with no sanitization pass, so a fault
whose text holds a newline yields a response that is not a fixed point of
the sanitizer, contradicting the claim for that path. -/
theorem record_sanitized_cex :
    dictGet? ((agentProcess "Researcher" [] (.fault "x\ny")).1) "response" =
      some (.str (errResponse "x\ny")) ∧
    clean_text_for_json (errResponse "x\ny") ≠ errResponse "x\ny" :=
  ⟨rfl, by decide⟩

/-- C9 amended: on every non-exception path (successful parse and the
synthesized fallback alike) both stored fields are fixed points of the
sanitizer; on the exception path the fixed thoughts text is still a fixed
point, but the response embeds the raw fault text unsanitized. -/
theorem record_sanitized_amended (raw : String) (d : Dict) (r : String)
    (h : innerExtract raw = .ok (d, r)) :
    (clean_text_for_json r = r ∧
      ∃ t, dictGet? d "thoughts" = some (.str t) ∧ clean_text_for_json t = t) ∧
    clean_text_for_json errThoughts = errThoughts := by
  obtain ⟨hresp, hrc, t, ht, htc⟩ := innerExtract_shape raw d r h
  exact ⟨⟨hrc, t, ht, htc⟩, rfl⟩

theorem record_sanitized_amended_witness :
    innerExtract "ok" =
      .ok ([("thoughts", PyValue.str synthThoughts),
            ("response", PyValue.str "ok")], "ok") ∧
    ((clean_text_for_json "ok" = "ok" ∧
      ∃ t, dictGet? [("thoughts", PyValue.str synthThoughts),
            ("response", PyValue.str "ok")] "thoughts" = some (.str t) ∧
        clean_text_for_json t = t) ∧
     clean_text_for_json errThoughts = errThoughts) :=
  ⟨rfl, record_sanitized_amended "ok"
    [("thoughts", PyValue.str synthThoughts), ("response", PyValue.str "ok")]
    "ok" rfl⟩

/-- C3 counterexample: on a reply whose candidate is valid JSON but not an
object, the extraction does not fall into the synthesized-fallback record;
the .get call on the non-dict raises an AttributeError caught by the outer
handler, so thoughts is the error text, not the synthesized text. -/
theorem nonobject_fallback_cex :
    dictGet? ((agentProcess "Researcher" [] (.ok "[1, 2]")).1) "thoughts" =
      some (.str errThoughts) ∧ errThoughts ≠ synthThoughts :=
  ⟨rfl, by decide⟩

/-- C3 amended: when the cleaned candidate parses as valid JSON that is not
an object, reading .get on the non-dict value raises an AttributeError that
the outer except of process turns into the error record embedding the
attribute-error description, rather than the synthesized-fallback record. -/
theorem nonobject_attr_error (name : String) (hist : List HistEntry)
    (raw : String) (v : PyValue) (h1 : json_loads (candidateOf raw) = some v)
    (h2 : isObj v = false) :
    agentProcess name hist (.ok raw) =
      (errorDict (attrMsg (pyTypeName v)), hist) := by
  have hie : innerExtract raw = .error (attrMsg (pyTypeName v)) := by
    simp only [innerExtract, h1]
    cases v with
    | obj d0 => simp [isObj] at h2
    | null => rfl
    | bool b => rfl
    | num lex => rfl
    | str s => rfl
    | list xs => rfl
  simp [agentProcess, hie]

theorem nonobject_attr_error_witness :
    json_loads (candidateOf "[1, 2]") = some (.list [.num "1", .num "2"]) ∧
    isObj (PyValue.list [.num "1", .num "2"]) = false ∧
    agentProcess "Researcher" [] (.ok "[1, 2]") =
      (errorDict (attrMsg (pyTypeName (.list [.num "1", .num "2"]))), []) :=
  ⟨rfl, rfl, nonobject_attr_error "Researcher" [] "[1, 2]"
    (.list [.num "1", .num "2"]) rfl rfl⟩

/-- C4: an exception raised inside the guarded block of run_workflow outside
the Agent.process contract, injected at any of the four orchestration
points, makes run_workflow return the empty list: the stage results already
accumulated before the fault are discarded, never returned partially. -/
theorem workflow_abort_empty (env : Env) (ag : Agents) (task : String)
    (n : Nat) (m : String) (h : env.orchFault = some (n, m)) (hn : n ≤ 3) :
    (run_workflow env ag task).1 = [] := by
  interval_cases n
  · simp [run_workflow, checkFault, h]
  · simp [run_workflow, checkFault, h, pyGetItem_resp]
  · simp [run_workflow, checkFault, h, pyGetItem_resp]
  · simp [run_workflow, checkFault, h, pyGetItem_resp]

/-- Environment for the abort witness: healthy model calls, with one fault
injected at the second orchestration point. -/
def faultEnv : Env :=
  ⟨fun _ => .ok "x", fun _ => .ok "x", fun _ => .ok "x", some (1, "boom")⟩

theorem workflow_abort_empty_witness :
    faultEnv.orchFault = some (1, "boom") ∧ 1 ≤ 3 ∧
    (run_workflow faultEnv ⟨[], [], []⟩ "t").1 = [] :=
  ⟨rfl, by decide,
    workflow_abort_empty faultEnv ⟨[], [], []⟩ "t" 1 "boom" rfl (by decide)⟩

/-- C2: when the researcher model call fails with any transport fault, the
researcher stage contributes the error record whose response embeds the
fault text, the writer and critic stages still run with inputs built from
that error text, and the final list has exactly three entries in order. -/
theorem workflow_fault_isolated (m : String) (wc cc : String → CallResult)
    (ag : Agents) (task : String) :
    (run_workflow ⟨fun _ => .fault m, wc, cc, none⟩ ag task).1 =
      [⟨"researcher", errorDict m⟩,
       ⟨"writer", (agentProcess "Writer" ag.writer
          (wc (writerInput task (errResponse m)))).1⟩,
       ⟨"critic", (agentProcess "Critic" ag.critic
          (cc (criticInput task (respOf ((agentProcess "Writer" ag.writer
            (wc (writerInput task (errResponse m)))).1))))).1⟩] ∧
    (run_workflow ⟨fun _ => .fault m, wc, cc, none⟩ ag task).1.length = 3 ∧
    (∃ pre post, errResponse m = pre ++ m ++ post) := by
  have hmain : (run_workflow ⟨fun _ => .fault m, wc, cc, none⟩ ag task).1 =
      [⟨"researcher", errorDict m⟩,
       ⟨"writer", (agentProcess "Writer" ag.writer
          (wc (writerInput task (errResponse m)))).1⟩,
       ⟨"critic", (agentProcess "Critic" ag.critic
          (cc (criticInput task (respOf ((agentProcess "Writer" ag.writer
            (wc (writerInput task (errResponse m)))).1))))).1⟩] := by
    simp only [run_workflow, checkFault, agentProcess_fault, pyGetItem_errorDict,
      pyGetItem_resp, pyStr_str]
  refine ⟨hmain, by rw [hmain]; rfl,
    "I encountered an error while processing the input: ",
    ". Please try rephrasing your request.", rfl⟩

/-- C5: when all three model calls succeed, run_workflow returns exactly
three entries, in the order researcher, writer, critic, where the writer
stage input embeds the researcher record's response and the critic stage
input embeds the writer record's response. -/
theorem workflow_success_pipeline (f g h : String → String) (ag : Agents)
    (task : String) :
    (run_workflow ⟨fun s => .ok (f s), fun s => .ok (g s), fun s => .ok (h s),
        none⟩ ag task).1 =
      [⟨"researcher", (agentProcess "Researcher" ag.researcher
          (.ok (f (researcherInput task)))).1⟩,
       ⟨"writer", (agentProcess "Writer" ag.writer (.ok (g (writerInput task
          (respOf ((agentProcess "Researcher" ag.researcher
            (.ok (f (researcherInput task)))).1)))))).1⟩,
       ⟨"critic", (agentProcess "Critic" ag.critic (.ok (h (criticInput task
          (respOf ((agentProcess "Writer" ag.writer (.ok (g (writerInput task
            (respOf ((agentProcess "Researcher" ag.researcher
              (.ok (f (researcherInput task)))).1)))))).1)))))).1⟩] ∧
    (run_workflow ⟨fun s => .ok (f s), fun s => .ok (g s), fun s => .ok (h s),
        none⟩ ag task).1.length = 3 ∧
    (∀ r : String, ∃ pre post, writerInput task r = pre ++ r ++ post) ∧
    (∀ r : String, ∃ pre post, criticInput task r = pre ++ r ++ post) := by
  have hmain : (run_workflow ⟨fun s => .ok (f s), fun s => .ok (g s),
      fun s => .ok (h s), none⟩ ag task).1 =
      [⟨"researcher", (agentProcess "Researcher" ag.researcher
          (.ok (f (researcherInput task)))).1⟩,
       ⟨"writer", (agentProcess "Writer" ag.writer (.ok (g (writerInput task
          (respOf ((agentProcess "Researcher" ag.researcher
            (.ok (f (researcherInput task)))).1)))))).1⟩,
       ⟨"critic", (agentProcess "Critic" ag.critic (.ok (h (criticInput task
          (respOf ((agentProcess "Writer" ag.writer (.ok (g (writerInput task
            (respOf ((agentProcess "Researcher" ag.researcher
              (.ok (f (researcherInput task)))).1)))))).1)))))).1⟩] := by
    simp only [run_workflow, checkFault, pyGetItem_resp, pyStr_str]
  refine ⟨hmain, by rw [hmain]; rfl, fun r => ?_, fun r => ?_⟩
  · exact ⟨"Using these research points: ",
      "\nCreate a well-structured explanation of: " ++ task,
      by simp [writerInput, String.append_assoc]⟩
  · exact ⟨"Review this explanation of " ++ task ++ ":\n",
      "\nProvide specific feedback and suggestions.",
      by simp [criticInput, String.append_assoc]⟩
